import Mathlib

/-!
Verification of the `protoc-gen-webviewrpc` code generator.

The Go plugin (src/main.go) reads a binary `CodeGeneratorRequest` from
stdin, parses its free-form parameter string into a set of activated
generation targets, builds a language-neutral service model for every
service of every requested schema file, renders one stub per activated
target, and writes a `CodeGeneratorResponse` carrying the generated
files and an accumulated diagnostic string.

This file shallowly embeds that pipeline: protobuf descriptor messages
become plain structures, text templates become an abstract rendering
function `Tmpl → serviceInfo → Except String String`, and the
imperative loops of `main` become folds.  String helpers are modelled
over `List Char` so that every definition reduces in the kernel.
-/

/-- One method of a protobuf service descriptor (`MethodDescriptorProto`):
only the fields the generator reads. -/
structure MethodDescriptorProto where
  name : String
  inputType : String
  outputType : String
deriving DecidableEq

/-- One service of a schema file (`ServiceDescriptorProto`). -/
structure ServiceDescriptorProto where
  name : String
  method : List MethodDescriptorProto
deriving DecidableEq

/-- The subset of `FileOptions` the generator reads.  `csharpNamespace`
models the result of `GetCsharpNamespace()`: the empty string when the
option is absent. -/
structure FileOptions where
  csharpNamespace : String
deriving DecidableEq

/-- One schema file (`FileDescriptorProto`): name, package, options,
declared message names and services. -/
structure FileDescriptorProto where
  name : String
  package : String
  options : Option FileOptions
  messageType : List String
  service : List ServiceDescriptorProto
deriving DecidableEq

/-- The decoded plugin input (`CodeGeneratorRequest`). -/
structure CodeGeneratorRequest where
  parameter : String
  fileToGenerate : List String
  protoFile : List FileDescriptorProto
deriving DecidableEq

/-- One generated file of the response (`CodeGeneratorResponse_File`). -/
structure CodeGeneratorResponseFile where
  name : String
  content : String
deriving DecidableEq

/-- The plugin output (`CodeGeneratorResponse`): optional combined
diagnostic and ordered file list.  `&pluginpb.CodeGeneratorResponse{}`
is `⟨none, []⟩`. -/
structure CodeGeneratorResponse where
  error : Option String
  file : List CodeGeneratorResponseFile
deriving DecidableEq

/-- Per-method model handed to the templates (`methodInfo` in main.go). -/
structure methodInfo where
  MethodName : String
  InputType : String
  OutputType : String
deriving DecidableEq

/-- Per-service model handed to the templates (`serviceInfo` in main.go). -/
structure serviceInfo where
  CsharpNamespace : String
  ServiceName : String
  Methods : List methodInfo
  AllMessages : List String
  ProtoBaseName : String
deriving DecidableEq

/-- The four embedded templates of main.go. -/
inductive Tmpl where
  | csharpClient
  | csharpServer
  | jsClient
  | jsServer
deriving DecidableEq

/-! ## String helpers, modelled over `List Char` -/

/-- ASCII fragment of Go `unicode.IsSpace`, as used by `strings.TrimSpace`. -/
def goIsSpace (c : Char) : Bool :=
  c = ' ' || c = '\t' || c = '\n' || c = '\x0b' || c = '\x0c' || c = '\r'

/-- Go `strings.TrimSpace`: drop leading and trailing whitespace. -/
def trimSpace (s : String) : String :=
  String.mk (((s.data.dropWhile goIsSpace).reverse.dropWhile goIsSpace).reverse)

/-- Go `strings.Split(s, sep)` for a one-character separator, on char
lists: splits at every separator, keeping empty fields. -/
def splitCharsOn (sep : Char) : List Char → List (List Char)
  | [] => [[]]
  | c :: rest =>
    match splitCharsOn sep rest with
    | [] => [[]]
    | cur :: parts => if c = sep then [] :: cur :: parts else (c :: cur) :: parts

/-- Model of `parseGeneratorParams` (main.go): split the parameter string on
commas, trim each token, drop empties.  The Go version stores each
remaining token as a map key with value "true"; presence in this list
is exactly presence in that map. -/
def parseGeneratorParams (paramStr : String) : List String :=
  if paramStr = "" then []
  else ((splitCharsOn ',' paramStr.data).map (fun cs => trimSpace (String.mk cs))).filter
    (fun p => p ≠ "")

/-- Model of `contains` (main.go): linear membership scan. -/
def contains : List String → String → Bool
  | [], _ => false
  | v :: rest, s => if v = s then true else contains rest s

/-- Model of `shortTypeName` (src/main.go): `strings.TrimPrefix(full, ".")` —
removes one leading dot and nothing else. -/
def shortTypeName (full : String) : String :=
  match full.data with
  | '.' :: rest => String.mk rest
  | _ => full

/-- Variant of `shortTypeName` as implemented in the sibling copy of the plugin
(src/unnamed/part_002): trim the leading dot, split on dots, keep the
last component. -/
def shortTypeNameLast (full : String) : String :=
  let s : List Char :=
    match full.data with
    | '.' :: rest => rest
    | l => l
  String.mk ((splitCharsOn '.' s).getLastD [])

/-- Go `filepath.Ext`: the suffix of the last path element starting at
its final dot, or the empty string when that element has no dot. -/
def filepathExt (p : String) : String :=
  let seg := p.data.reverse.takeWhile (fun c => c ≠ '/')
  let beforeDot := seg.takeWhile (fun c => c ≠ '.')
  if beforeDot.length = seg.length then ""
  else String.mk ((seg.take (beforeDot.length + 1)).reverse)

/-- Go `strings.TrimSuffix`. -/
def trimSuffix (s suffix : String) : String :=
  if s.data.reverse.take suffix.data.length = suffix.data.reverse
  then String.mk ((s.data.reverse.drop suffix.data.length).reverse)
  else s

/-- ASCII fragment of Go's `isSeparator` as used by `strings.Title`:
letters, digits and underscore do not separate words; everything else
does. -/
def goIsSeparator (c : Char) : Bool :=
  !(c.isAlphanum || c = '_')

/-- Character mapping loop of Go `strings.Title`: a letter that follows
a separator is mapped to title case (upper case in ASCII); the previous
original character is threaded through. -/
def titleChars : Char → List Char → List Char
  | _, [] => []
  | prev, c :: rest =>
    (if goIsSeparator prev then c.toUpper else c) :: titleChars c rest

/-- Go `strings.Title` (ASCII): capitalize the first letter of every
word; the scan starts as if preceded by a space. -/
def stringsTitle (s : String) : String :=
  String.mk (titleChars ' ' s.data)

/-! ## Model extraction (main.go) -/

/-- Model of `fd.GetOptions().GetCsharpNamespace()`: empty string when options
are absent. -/
def csharpNamespaceOption (fd : FileDescriptorProto) : String :=
  match fd.options with
  | none => ""
  | some o => o.csharpNamespace

/-- Model of `getCsharpNamespace` (main.go): explicit option if non-empty, else
`"DefaultNamespace"` for an empty package, else `strings.Title` of the
package. -/
def getCsharpNamespace (fd : FileDescriptorProto) : String :=
  if csharpNamespaceOption fd ≠ "" then csharpNamespaceOption fd
  else if fd.package = "" then "DefaultNamespace"
  else stringsTitle fd.package

/-- Model of `collectAllMessages` (main.go): the declared message names in order. -/
def collectAllMessages (fd : FileDescriptorProto) : List String :=
  fd.messageType.map (fun n => n)

/-- The method list built in `main`'s inner loop: one `methodInfo` per
declared method, in declaration order, types through `shortTypeName`. -/
def buildMethods (svc : ServiceDescriptorProto) : List methodInfo :=
  svc.method.map (fun m =>
    { MethodName := m.name
      InputType := shortTypeName m.inputType
      OutputType := shortTypeName m.outputType })

/-- The `svcData` record built in `main` for one (file, service) pair. -/
def buildServiceInfo (fd : FileDescriptorProto) (baseName : String)
    (svc : ServiceDescriptorProto) : serviceInfo :=
  { CsharpNamespace := getCsharpNamespace fd
    ServiceName := svc.name
    Methods := buildMethods svc
    AllMessages := collectAllMessages fd
    ProtoBaseName := baseName }

/-- Model of `appendError` (main.go): first message starts the diagnostic, later
ones are appended after a newline. -/
def appendError (err : Option String) (msg : String) : Option String :=
  match err with
  | none => some msg
  | some e => some (e ++ "\n" ++ msg)

/-- One `if genXyz { render; append file or error }` block of `main`. -/
def renderOne (render : Tmpl → serviceInfo → Except String String)
    (resp : CodeGeneratorResponse) (tmpl : Tmpl) (svcData : serviceInfo)
    (fileName : String) : CodeGeneratorResponse :=
  match render tmpl svcData with
  | .error e => { resp with error := appendError resp.error e }
  | .ok out => { resp with file := resp.file ++ [⟨fileName, out⟩] }

/-- The body of `main`'s per-service loop: the four target blocks in
their fixed source order (C# client, C# server, JS client, JS server). -/
def handleService (render : Tmpl → serviceInfo → Except String String)
    (genCSClient genCSServer genJSClient genJSServer : Bool)
    (baseName : String) (fd : FileDescriptorProto)
    (resp : CodeGeneratorResponse) (svc : ServiceDescriptorProto) :
    CodeGeneratorResponse :=
  let svcData := buildServiceInfo fd baseName svc
  let r1 := if genCSClient then
    renderOne render resp .csharpClient svcData (baseName ++ "_" ++ svc.name ++ "Client.cs")
    else resp
  let r2 := if genCSServer then
    renderOne render r1 .csharpServer svcData (baseName ++ "_" ++ svc.name ++ "Base.cs")
    else r1
  let r3 := if genJSClient then
    renderOne render r2 .jsClient svcData (baseName ++ "_" ++ svc.name ++ "Client.js")
    else r2
  if genJSServer then
    renderOne render r3 .jsServer svcData (baseName ++ "_" ++ svc.name ++ "Base.js")
    else r3

/-- The body of `main`'s per-file loop: skip files not listed in
`file_to_generate`, otherwise fold the service loop. -/
def handleFile (render : Tmpl → serviceInfo → Except String String)
    (genCSClient genCSServer genJSClient genJSServer : Bool)
    (fileToGenerate : List String) (resp : CodeGeneratorResponse)
    (fd : FileDescriptorProto) : CodeGeneratorResponse :=
  if contains fileToGenerate fd.name then
    let baseName := trimSuffix fd.name (filepathExt fd.name)
    fd.service.foldl
      (handleService render genCSClient genCSServer genJSClient genJSServer baseName fd)
      resp
  else resp

/-- Generation loop of `main` after the four target flags are computed:
fold over all proto files starting from the empty response. -/
def runGeneratorCore (render : Tmpl → serviceInfo → Except String String)
    (genCSClient genCSServer genJSClient genJSServer : Bool)
    (fileToGenerate : List String) (protoFile : List FileDescriptorProto) :
    CodeGeneratorResponse :=
  protoFile.foldl
    (handleFile render genCSClient genCSServer genJSClient genJSServer fileToGenerate)
    ⟨none, []⟩

/-- The generation phase of `main`: parse the parameter string, compute
the four activation flags (`params["..."] == "true"`), run the loop. -/
def runGenerator (render : Tmpl → serviceInfo → Except String String)
    (req : CodeGeneratorRequest) : CodeGeneratorResponse :=
  let params := parseGeneratorParams req.parameter
  runGeneratorCore render
    (decide ("cs_client" ∈ params)) (decide ("cs_server" ∈ params))
    (decide ("js_client" ∈ params)) (decide ("js_server" ∈ params))
    req.fileToGenerate req.protoFile

/-- Outcome of one process run: the exit code, and the response written
to stdout when the run reaches the output step (`none` = no bytes
written). -/
structure ProcOutcome where
  exitCode : Nat
  stdoutResp : Option CodeGeneratorResponse
deriving DecidableEq

/-- The top of `main`: reading stdin (`none` models a read error) and
decoding the request both go through `fail`, which prints to stderr and
calls `os.Exit(1)` before anything is written to stdout. -/
def runPlugin (stdin : Option (List Nat))
    (decode : List Nat → Option CodeGeneratorRequest)
    (render : Tmpl → serviceInfo → Except String String) : ProcOutcome :=
  match stdin with
  | none => ⟨1, none⟩
  | some buf =>
    match decode buf with
    | none => ⟨1, none⟩
    | some req => ⟨0, some (runGenerator render req)⟩

/-! ## Declarative characterization of the generation loop

The imperative folds above are related, below, to flat outcome lists:
one `Except String CodeGeneratorResponseFile` per attempted
(file, service, target) rendering, in encounter order. -/

/-- The activated (template, output file name) slots for one service,
in the fixed source order: C# client, C# server, JS client, JS server. -/
def targetSlots (genCSClient genCSServer genJSClient genJSServer : Bool)
    (baseName svcName : String) : List (Tmpl × String) :=
  (if genCSClient then [(Tmpl.csharpClient, baseName ++ "_" ++ svcName ++ "Client.cs")] else []) ++
  (if genCSServer then [(Tmpl.csharpServer, baseName ++ "_" ++ svcName ++ "Base.cs")] else []) ++
  (if genJSClient then [(Tmpl.jsClient, baseName ++ "_" ++ svcName ++ "Client.js")] else []) ++
  (if genJSServer then [(Tmpl.jsServer, baseName ++ "_" ++ svcName ++ "Base.js")] else [])

/-- Rendering outcome of one slot: a file on success, the message on
failure. -/
def slotOutcome (render : Tmpl → serviceInfo → Except String String)
    (svcData : serviceInfo) (slot : Tmpl × String) :
    Except String CodeGeneratorResponseFile :=
  match render slot.1 svcData with
  | .error e => .error e
  | .ok out => .ok ⟨slot.2, out⟩

/-- All outcomes attempted for one service, in encounter order. -/
def serviceOutcomes (render : Tmpl → serviceInfo → Except String String)
    (genCSClient genCSServer genJSClient genJSServer : Bool)
    (baseName : String) (fd : FileDescriptorProto)
    (svc : ServiceDescriptorProto) : List (Except String CodeGeneratorResponseFile) :=
  (targetSlots genCSClient genCSServer genJSClient genJSServer baseName svc.name).map
    (slotOutcome render (buildServiceInfo fd baseName svc))

/-- All outcomes attempted for one schema file (none when the file is
not requested). -/
def fileOutcomes (render : Tmpl → serviceInfo → Except String String)
    (genCSClient genCSServer genJSClient genJSServer : Bool)
    (fileToGenerate : List String) (fd : FileDescriptorProto) :
    List (Except String CodeGeneratorResponseFile) :=
  if contains fileToGenerate fd.name then
    fd.service.flatMap
      (serviceOutcomes render genCSClient genCSServer genJSClient genJSServer
        (trimSuffix fd.name (filepathExt fd.name)) fd)
  else []

/-- All outcomes of one run, in encounter order. -/
def allOutcomes (render : Tmpl → serviceInfo → Except String String)
    (genCSClient genCSServer genJSClient genJSServer : Bool)
    (fileToGenerate : List String) (protoFile : List FileDescriptorProto) :
    List (Except String CodeGeneratorResponseFile) :=
  protoFile.flatMap
    (fileOutcomes render genCSClient genCSServer genJSClient genJSServer fileToGenerate)

/-- All outcomes of a run on a full request. -/
def requestOutcomes (render : Tmpl → serviceInfo → Except String String)
    (req : CodeGeneratorRequest) : List (Except String CodeGeneratorResponseFile) :=
  allOutcomes render
    (decide ("cs_client" ∈ parseGeneratorParams req.parameter))
    (decide ("cs_server" ∈ parseGeneratorParams req.parameter))
    (decide ("js_client" ∈ parseGeneratorParams req.parameter))
    (decide ("js_server" ∈ parseGeneratorParams req.parameter))
    req.fileToGenerate req.protoFile

/-- Fold one outcome into a response: failures extend the diagnostic,
successes append a file. -/
def applyOutcome (resp : CodeGeneratorResponse)
    (o : Except String CodeGeneratorResponseFile) : CodeGeneratorResponse :=
  match o with
  | .error e => { resp with error := appendError resp.error e }
  | .ok f => { resp with file := resp.file ++ [f] }

/-- The failure message of an outcome, if any. -/
def errMsg : Except String CodeGeneratorResponseFile → Option String
  | .error e => some e
  | .ok _ => none

/-- The produced file of an outcome, if any. -/
def okFile : Except String CodeGeneratorResponseFile → Option CodeGeneratorResponseFile
  | .error _ => none
  | .ok f => some f

/-- Newline-join of an error list as the response diagnostic: `none`
when no error occurred, otherwise the messages joined by single
newlines in order. -/
def diagnosticOf (msgs : List String) : Option String :=
  match msgs with
  | [] => none
  | e :: rest => some (rest.foldl (fun acc m => acc ++ "\n" ++ m) e)

/-! ## Fold characterization lemmas -/

theorem renderOne_eq_applyOutcome (render : Tmpl → serviceInfo → Except String String)
    (resp : CodeGeneratorResponse) (tmpl : Tmpl) (svcData : serviceInfo)
    (fileName : String) :
    renderOne render resp tmpl svcData fileName =
      applyOutcome resp (slotOutcome render svcData (tmpl, fileName)) := by
  unfold renderOne applyOutcome slotOutcome
  cases render tmpl svcData <;> rfl

theorem handleService_eq_foldl (render : Tmpl → serviceInfo → Except String String)
    (c1 c2 c3 c4 : Bool) (baseName : String) (fd : FileDescriptorProto)
    (resp : CodeGeneratorResponse) (svc : ServiceDescriptorProto) :
    handleService render c1 c2 c3 c4 baseName fd resp svc =
      (serviceOutcomes render c1 c2 c3 c4 baseName fd svc).foldl applyOutcome resp := by
  unfold handleService serviceOutcomes targetSlots
  cases c1 <;> cases c2 <;> cases c3 <;> cases c4 <;>
    simp [renderOne_eq_applyOutcome, List.foldl]

theorem foldl_fun_congr {α β : Type} (l : List α) (f g : β → α → β) (init : β)
    (h : ∀ b a, a ∈ l → f b a = g b a) : l.foldl f init = l.foldl g init := by
  induction l generalizing init with
  | nil => rfl
  | cons a t ih =>
    simp only [List.foldl, h init a (List.mem_cons_self a t)]
    exact ih _ (fun b x hx => h b x (List.mem_cons_of_mem a hx))

theorem foldl_flatMap_eq {α β γ : Type} (l : List α) (g : α → List β)
    (f : γ → β → γ) (init : γ) :
    (l.flatMap g).foldl f init = l.foldl (fun acc a => (g a).foldl f acc) init := by
  induction l generalizing init with
  | nil => rfl
  | cons a t ih => simp [List.flatMap_cons, List.foldl_append, ih]

theorem handleFile_eq_foldl (render : Tmpl → serviceInfo → Except String String)
    (c1 c2 c3 c4 : Bool) (fileToGenerate : List String)
    (resp : CodeGeneratorResponse) (fd : FileDescriptorProto) :
    handleFile render c1 c2 c3 c4 fileToGenerate resp fd =
      (fileOutcomes render c1 c2 c3 c4 fileToGenerate fd).foldl applyOutcome resp := by
  unfold handleFile fileOutcomes
  cases h : contains fileToGenerate fd.name with
  | false => simp
  | true =>
    rw [if_pos rfl, if_pos rfl, foldl_flatMap_eq]
    exact foldl_fun_congr _ _ _ _ (fun resp svc _ => handleService_eq_foldl _ _ _ _ _ _ _ _ _)

theorem runGeneratorCore_eq_foldl (render : Tmpl → serviceInfo → Except String String)
    (c1 c2 c3 c4 : Bool) (fileToGenerate : List String)
    (protoFile : List FileDescriptorProto) :
    runGeneratorCore render c1 c2 c3 c4 fileToGenerate protoFile =
      (allOutcomes render c1 c2 c3 c4 fileToGenerate protoFile).foldl applyOutcome ⟨none, []⟩ := by
  unfold runGeneratorCore allOutcomes
  rw [foldl_flatMap_eq]
  exact foldl_fun_congr _ _ _ _ (fun resp fd _ => handleFile_eq_foldl _ _ _ _ _ _ _ _)

theorem foldl_applyOutcome_eq (outs : List (Except String CodeGeneratorResponseFile))
    (resp : CodeGeneratorResponse) :
    outs.foldl applyOutcome resp =
      ⟨(outs.filterMap errMsg).foldl appendError resp.error,
        resp.file ++ outs.filterMap okFile⟩ := by
  induction outs generalizing resp with
  | nil => simp
  | cons o rest ih =>
    cases o with
    | error e => simp [List.foldl, applyOutcome, errMsg, okFile, ih]
    | ok f => simp [List.foldl, applyOutcome, errMsg, okFile, ih]

theorem foldl_appendError_some (msgs : List String) (a : String) :
    msgs.foldl appendError (some a) =
      some (msgs.foldl (fun acc m => acc ++ "\n" ++ m) a) := by
  induction msgs generalizing a with
  | nil => rfl
  | cons m rest ih => simp [List.foldl, appendError, ih]

theorem foldl_appendError_none (msgs : List String) :
    msgs.foldl appendError none = diagnosticOf msgs := by
  cases msgs with
  | nil => rfl
  | cons e rest => simp [List.foldl, appendError, diagnosticOf, foldl_appendError_some]

/-- Full characterization of a run: the diagnostic is the newline-join
of the failure messages in encounter order, the file list is the
successes in encounter order. -/
theorem runGenerator_characterization (render : Tmpl → serviceInfo → Except String String)
    (req : CodeGeneratorRequest) :
    runGenerator render req =
      ⟨diagnosticOf ((requestOutcomes render req).filterMap errMsg),
        (requestOutcomes render req).filterMap okFile⟩ := by
  unfold runGenerator requestOutcomes
  rw [runGeneratorCore_eq_foldl, foldl_applyOutcome_eq, foldl_appendError_none]
  rfl


/-! ## RPC envelope chunking (runtime protocol)

The chunking/reassembly runtime is generated code and the C#/JS
runtime libraries; only the wire schema (`ChunkInfo` in the
`WebViewRPC` proto: `chunkSetId`, `chunkIndex`, `totalChunks`,
`originalSize`) is present among the sources.  The algorithm is
therefore modelled from the spec. -/

/-- Modelled from the spec: one chunk envelope payload.  Missing from
src/: the runtime chunking implementation; the fields mirror the
`ChunkInfo` schema message (`chunkSetId`, 0-based `chunkIndex`,
`totalChunks`, `originalSize`) plus the carried payload slice. -/
structure Chunk where
  chunkSetId : String
  chunkIndex : Nat
  totalChunks : Nat
  originalSize : Nat
  data : List Nat
deriving DecidableEq

/-- Modelled from the spec: splitting an oversized payload `P` with
chunk size `C` into `totalChunks = ceil(|P| / C)` pieces, the i-th
piece carrying bytes `[i*C, i*C+C)`, a shared fresh `chunkSetId`, and
`chunkIndex` / `totalChunks` / `originalSize`. -/
def splitChunks (sid : String) (P : List Nat) (C : Nat) : List Chunk :=
  let total := (P.length + C - 1) / C
  (List.range total).map (fun i =>
    { chunkSetId := sid
      chunkIndex := i
      totalChunks := total
      originalSize := P.length
      data := (P.drop (i * C)).take C })

/-- Modelled from the spec: reassembly of a delivered chunk set.  Once
all `totalChunks` indices are present, the receiver concatenates the
stored chunks in ascending index order; delivery order is not assumed. -/
def reassemble (l : List Chunk) : List Nat :=
  match l with
  | [] => []
  | ch :: _ =>
    ((List.range ch.totalChunks).filterMap
      (fun i => (l.find? (fun c => c.chunkIndex == i)).map (fun c => c.data))).flatten

theorem find_unique {α : Type} (p : α → Bool) (l : List α) (x : α)
    (hx : x ∈ l) (hpx : p x = true) (huniq : ∀ y ∈ l, p y = true → y = x) :
    l.find? p = some x := by
  induction l with
  | nil => cases hx
  | cons a t ih =>
    cases hpa : p a with
    | true =>
      have hax : a = x := huniq a (List.mem_cons_self a t) hpa
      subst hax
      simp [List.find?, hpa]
    | false =>
      have hxt : x ∈ t := by
        rcases List.mem_cons.mp hx with h | h
        · exact absurd (h ▸ hpx) (by simp [hpa])
        · exact h
      simp only [List.find?, hpa]
      exact ih hxt (fun y hy hpy => huniq y (List.mem_cons_of_mem a hy) hpy)

theorem filterMap_eq_map_of {α β : Type} (l : List α) (f : α → Option β) (g : α → β)
    (h : ∀ a ∈ l, f a = some (g a)) : l.filterMap f = l.map g := by
  induction l with
  | nil => rfl
  | cons a t ih =>
    rw [List.filterMap_cons, h a (List.mem_cons_self a t), List.map_cons,
      ih (fun y hy => h y (List.mem_cons_of_mem a hy))]

theorem join_take_chunks (P : List Nat) (C n : Nat) :
    ((List.range n).map (fun i => (P.drop (i * C)).take C)).flatten = P.take (n * C) := by
  induction n with
  | zero => simp
  | succ n ih =>
    rw [List.range_succ, List.map_append, List.flatten_append, ih]
    simp only [List.map_cons, List.map_nil, List.flatten_cons, List.flatten_nil,
      List.append_nil]
    rw [Nat.succ_mul, List.take_add]

theorem ceil_mul_ge (len C : Nat) (hC : 0 < C) : len ≤ ((len + C - 1) / C) * C := by
  have h := Nat.div_add_mod (len + C - 1) C
  have h2 : (len + C - 1) % C < C := Nat.mod_lt _ hC
  rw [Nat.mul_comm]
  omega

theorem mem_splitChunks {sid : String} {P : List Nat} {C : Nat} {ch : Chunk}
    (h : ch ∈ splitChunks sid P C) :
    ∃ i, i < (P.length + C - 1) / C ∧
      ch = ⟨sid, i, (P.length + C - 1) / C, P.length, (P.drop (i * C)).take C⟩ := by
  simp only [splitChunks, List.mem_map, List.mem_range] at h
  rcases h with ⟨i, hi, rfl⟩
  exact ⟨i, hi, rfl⟩

/-- C3: for any payload P and chunk size C > 0, the split produces
ceil(|P|/C) chunks whose indices are exactly 0..totalChunks-1 and whose
`originalSize` is |P|; reassembling the chunk set delivered in any
order (any permutation `l` of the split) reproduces P exactly, and the
reassembled length equals `originalSize`. -/
theorem chunk_split_reassemble_roundtrip (sid : String) (P : List Nat) (C : Nat)
    (hC : 0 < C) (l : List Chunk) (hl : List.Perm l (splitChunks sid P C)) :
    reassemble l = P ∧
    l.length = (P.length + C - 1) / C ∧
    (∀ ch ∈ l, ch.originalSize = P.length ∧ (reassemble l).length = ch.originalSize) ∧
    List.Perm (l.map (fun ch => ch.chunkIndex)) (List.range ((P.length + C - 1) / C)) := by
  have hsplit_len : (splitChunks sid P C).length = (P.length + C - 1) / C := by
    simp [splitChunks]
  have hlen : l.length = (P.length + C - 1) / C := hl.length_eq.trans hsplit_len
  have hmain : reassemble l = P := by
    by_cases h0 : (P.length + C - 1) / C = 0
    · have hP : P = [] := by
        have hle := ceil_mul_ge P.length C hC
        rw [h0, Nat.zero_mul] at hle
        exact List.length_eq_zero.mp (Nat.le_zero.mp hle)
      have hnil : l = [] := List.length_eq_zero.mp (hlen.trans h0)
      rw [hnil, hP]
      rfl
    · cases hcase : l with
      | nil =>
        rw [hcase] at hlen
        exact absurd (by simpa using hlen.symm) h0
      | cons ch rest =>
        subst hcase
        have hch := mem_splitChunks (hl.mem_iff.mp (List.mem_cons_self ch rest))
        rcases hch with ⟨j, hj, hchEq⟩
        have htot : ch.totalChunks = (P.length + C - 1) / C := by rw [hchEq]
        have hfind : ∀ i ∈ List.range ((P.length + C - 1) / C),
            ((ch :: rest).find? (fun c => c.chunkIndex == i)).map (fun c => c.data) =
              some ((P.drop (i * C)).take C) := by
          intro i hi
          rw [List.mem_range] at hi
          have hx : (⟨sid, i, (P.length + C - 1) / C, P.length,
              (P.drop (i * C)).take C⟩ : Chunk) ∈ ch :: rest := by
            refine hl.mem_iff.mpr ?_
            simp only [splitChunks, List.mem_map, List.mem_range]
            exact ⟨i, hi, rfl⟩
          rw [find_unique (fun c => c.chunkIndex == i) (ch :: rest)
            ⟨sid, i, (P.length + C - 1) / C, P.length, (P.drop (i * C)).take C⟩ hx
            (by simp) ?_]
          · rfl
          · intro y hy hpy
            rcases mem_splitChunks (hl.mem_iff.mp hy) with ⟨k, hk, rfl⟩
            have : k = i := by simpa using hpy
            subst this
            rfl
        show ((List.range ch.totalChunks).filterMap
          (fun i => ((ch :: rest).find? (fun c => c.chunkIndex == i)).map
            (fun c => c.data))).flatten = P
        rw [htot, filterMap_eq_map_of _ _ (fun i => (P.drop (i * C)).take C) hfind,
          join_take_chunks]
        exact List.take_of_length_le (ceil_mul_ge P.length C hC)
  refine ⟨hmain, hlen, ?_, ?_⟩
  · intro ch hch
    rcases mem_splitChunks (hl.mem_iff.mp hch) with ⟨i, hi, rfl⟩
    exact ⟨rfl, by rw [hmain]⟩
  · have hperm := hl.map (fun ch => ch.chunkIndex)
    have : (splitChunks sid P C).map (fun ch => ch.chunkIndex) =
        List.range ((P.length + C - 1) / C) := by
      simp only [splitChunks, List.map_map, Function.comp_def]
      exact List.map_id ((List.range ((P.length + C - 1) / C)))
    exact this ▸ hperm

/-- Witness for C3: a five-byte payload split with chunk size 2 into
three chunks, delivered out of order, reassembles to the original. -/
theorem chunk_split_reassemble_roundtrip_witness :
    reassemble [⟨"s1", 2, 3, 5, [50]⟩, ⟨"s1", 0, 3, 5, [10, 20]⟩,
      ⟨"s1", 1, 3, 5, [30, 40]⟩] = [10, 20, 30, 40, 50] :=
  (chunk_split_reassemble_roundtrip ("s1") [10, 20, 30, 40, 50] 2 (by decide)
    [⟨"s1", 2, 3, 5, [50]⟩, ⟨"s1", 0, 3, 5, [10, 20]⟩, ⟨"s1", 1, 3, 5, [30, 40]⟩]
    (by decide)).1

/-! ## Claim theorems -/

/-- C1: the claim fails on src/main.go.  Its `shortTypeName` is
`strings.TrimPrefix(full, ".")`, which removes only the leading dot,
so the method model stores the package-qualified name
"myapp.HelloRequest" rather than the namespace-stripped
"HelloRequest"; the sibling implementation (src/unnamed/part_002)
does strip to the final identifier. -/
theorem shortTypeName_keeps_package_qualifier :
    shortTypeName (".myapp.HelloRequest") = "myapp.HelloRequest" ∧
    shortTypeName (".myapp.HelloRequest") ≠ "HelloRequest" ∧
    shortTypeNameLast (".myapp.HelloRequest") = "HelloRequest" ∧
    (buildMethods ⟨"HelloService",
      [⟨"SayHello", ".myapp.HelloRequest", ".myapp.HelloResponse"⟩]⟩).map
        (fun m => m.InputType) = ["myapp.HelloRequest"] := by
  refine ⟨rfl, ?_, rfl, rfl⟩
  decide

/-- C5: namespace resolution order — a non-empty explicit C# namespace
option wins; otherwise a non-empty package is passed through the
capitalizing `strings.Title` transform; otherwise the literal
"DefaultNamespace" is used. -/
theorem namespace_resolution_order (fd : FileDescriptorProto) :
    (csharpNamespaceOption fd ≠ "" → getCsharpNamespace fd = csharpNamespaceOption fd) ∧
    (csharpNamespaceOption fd = "" → fd.package ≠ "" →
      getCsharpNamespace fd = stringsTitle fd.package) ∧
    (csharpNamespaceOption fd = "" → fd.package = "" →
      getCsharpNamespace fd = "DefaultNamespace") := by
  unfold getCsharpNamespace
  refine ⟨fun h => ?_, fun h hp => ?_, fun h hp => ?_⟩
  · rw [if_pos h]
  · rw [if_neg (by simp [h]), if_neg hp]
  · rw [if_neg (by simp [h]), if_pos hp]

/-- Witness for C5: all three resolution branches at concrete files,
and the capitalized transform evaluated. -/
theorem namespace_resolution_order_witness :
    getCsharpNamespace ⟨"a.proto", "my_pkg", some ⟨"Ex.Plicit"⟩, [], []⟩ = "Ex.Plicit" ∧
    getCsharpNamespace ⟨"b.proto", "my.app", some ⟨""⟩, [], []⟩ = stringsTitle ("my.app") ∧
    getCsharpNamespace ⟨"c.proto", "", none, [], []⟩ = "DefaultNamespace" ∧
    stringsTitle ("my.app") = "My.App" :=
  ⟨(namespace_resolution_order ⟨"a.proto", "my_pkg", some ⟨"Ex.Plicit"⟩, [], []⟩).1
      (by decide),
    (namespace_resolution_order ⟨"b.proto", "my.app", some ⟨""⟩, [], []⟩).2.1 rfl (by decide),
    (namespace_resolution_order ⟨"c.proto", "", none, [], []⟩).2.2 rfl rfl,
    by decide⟩

/-- C9: the service model's method list preserves schema declaration
order exactly — the name sequence equals the declared name sequence,
the length matches (nothing dropped or deduplicated), and every name's
multiplicity is preserved. -/
theorem methods_in_declaration_order (fd : FileDescriptorProto) (baseName : String)
    (svc : ServiceDescriptorProto) :
    ((buildServiceInfo fd baseName svc).Methods).map (fun m => m.MethodName) =
      svc.method.map (fun m => m.name) ∧
    (buildServiceInfo fd baseName svc).Methods.length = svc.method.length ∧
    ∀ n : String,
      (((buildServiceInfo fd baseName svc).Methods).map (fun m => m.MethodName)).count n =
        (svc.method.map (fun m => m.name)).count n := by
  have hmap : ((buildServiceInfo fd baseName svc).Methods).map (fun m => m.MethodName) =
      svc.method.map (fun m => m.name) := by
    simp [buildServiceInfo, buildMethods, List.map_map, Function.comp_def]
  exact ⟨hmap, by simp [buildServiceInfo, buildMethods], fun n => by rw [hmap]⟩

deriving instance DecidableEq for Except

theorem flatMap_nil_fun {α β : Type} (l : List α) :
    (l.flatMap fun _ => ([] : List β)) = [] := by
  induction l with
  | nil => rfl
  | cons a t ih => simp [List.flatMap_cons, ih]

/-- Concrete rendering function for witnesses: every template succeeds. -/
def renderOk : Tmpl → serviceInfo → Except String String := fun _ _ => .ok ("stub")

/-- Concrete rendering function for witnesses: the C# client template
fails, every other template succeeds. -/
def renderCsClientFails : Tmpl → serviceInfo → Except String String := fun t _ =>
  match t with
  | .csharpClient => .error ("boom")
  | _ => .ok ("stub")

/-- Concrete schema file for witnesses: one service, no methods. -/
def fdHello : FileDescriptorProto := ⟨"hello.proto", "", none, [], [⟨"Greeter", []⟩]⟩

/-- Concrete request for witnesses. -/
def reqW (param : String) : CodeGeneratorRequest := ⟨param, ["hello.proto"], [fdHello]⟩

/-- C2: a run's response is fully characterized by the flat list of
per-(service, target) rendering outcomes in encounter order — the
diagnostic is exactly the newline-join of the failure messages in that
order, the file list is exactly the successful files in that order,
and in particular every successfully rendered file still reaches the
response no matter which other renderings failed. -/
theorem render_failures_recovered_locally
    (render : Tmpl → serviceInfo → Except String String) (req : CodeGeneratorRequest) :
    runGenerator render req =
      ⟨diagnosticOf ((requestOutcomes render req).filterMap errMsg),
        (requestOutcomes render req).filterMap okFile⟩ ∧
    ∀ o ∈ requestOutcomes render req, ∀ f, okFile o = some f →
      f ∈ (runGenerator render req).file := by
  refine ⟨runGenerator_characterization render req, ?_⟩
  intro o ho f hf
  rw [runGenerator_characterization]
  exact List.mem_filterMap.mpr ⟨o, ho, hf⟩

/-- Witness for C2: with the C# client template failing and both C#
targets activated, the server stub still reaches the response. -/
theorem render_failures_recovered_locally_witness :
    (⟨"hello_GreeterBase.cs", "stub"⟩ : CodeGeneratorResponseFile) ∈
      (runGenerator renderCsClientFails (reqW ("cs_client,cs_server"))).file :=
  (render_failures_recovered_locally renderCsClientFails (reqW ("cs_client,cs_server"))).2
    (.ok ⟨"hello_GreeterBase.cs", "stub"⟩) (by decide) ⟨"hello_GreeterBase.cs", "stub"⟩ rfl

/-- C6: the activated target set, and with it the whole response,
depends only on the set of trimmed comma-separated tokens — any
permutation or duplication of tokens (same token set) yields the same
response. -/
theorem target_selection_order_independent
    (render : Tmpl → serviceInfo → Except String String)
    (fs : List String) (pf : List FileDescriptorProto) (s t : String)
    (h1 : ∀ x ∈ parseGeneratorParams s, x ∈ parseGeneratorParams t)
    (h2 : ∀ x ∈ parseGeneratorParams t, x ∈ parseGeneratorParams s) :
    runGenerator render ⟨s, fs, pf⟩ = runGenerator render ⟨t, fs, pf⟩ := by
  have e : ∀ tok : String,
      decide (tok ∈ parseGeneratorParams s) = decide (tok ∈ parseGeneratorParams t) :=
    fun tok => decide_eq_decide.mpr ⟨fun hx => h1 tok hx, fun hx => h2 tok hx⟩
  show runGeneratorCore render
      (decide ("cs_client" ∈ parseGeneratorParams s))
      (decide ("cs_server" ∈ parseGeneratorParams s))
      (decide ("js_client" ∈ parseGeneratorParams s))
      (decide ("js_server" ∈ parseGeneratorParams s)) fs pf =
    runGeneratorCore render
      (decide ("cs_client" ∈ parseGeneratorParams t))
      (decide ("cs_server" ∈ parseGeneratorParams t))
      (decide ("js_client" ∈ parseGeneratorParams t))
      (decide ("js_server" ∈ parseGeneratorParams t)) fs pf
  rw [e ("cs_client"), e ("cs_server"), e ("js_client"), e ("js_server")]

/-- Witness for C6: a permuted, duplicated, re-spaced parameter string
yields the very same response. -/
theorem target_selection_order_independent_witness :
    runGenerator renderOk ⟨"js_client,cs_server", ["hello.proto"], [fdHello]⟩ =
      runGenerator renderOk ⟨"cs_server, js_client ,cs_server", ["hello.proto"], [fdHello]⟩ :=
  target_selection_order_independent renderOk ["hello.proto"] [fdHello]
    "js_client,cs_server" "cs_server, js_client ,cs_server" (by decide) (by decide)

/-- C7: a parameter string containing none of the four recognized
tokens (in particular the empty string, or one made of unrecognized
tokens only) activates nothing: the run produces the well-formed empty
response — zero files and no diagnostic. -/
theorem unrecognized_params_not_error
    (render : Tmpl → serviceInfo → Except String String)
    (s : String) (fs : List String) (pf : List FileDescriptorProto)
    (h : ∀ tok ∈ ["cs_client", "cs_server", "js_client", "js_server"],
      tok ∉ parseGeneratorParams s) :
    runGenerator render ⟨s, fs, pf⟩ = ⟨none, []⟩ := by
  have h1 : decide ("cs_client" ∈ parseGeneratorParams s) = false :=
    decide_eq_false (h _ (by simp))
  have h2 : decide ("cs_server" ∈ parseGeneratorParams s) = false :=
    decide_eq_false (h _ (by simp))
  have h3 : decide ("js_client" ∈ parseGeneratorParams s) = false :=
    decide_eq_false (h _ (by simp))
  have h4 : decide ("js_server" ∈ parseGeneratorParams s) = false :=
    decide_eq_false (h _ (by simp))
  show runGeneratorCore render
      (decide ("cs_client" ∈ parseGeneratorParams s))
      (decide ("cs_server" ∈ parseGeneratorParams s))
      (decide ("js_client" ∈ parseGeneratorParams s))
      (decide ("js_server" ∈ parseGeneratorParams s)) fs pf = ⟨none, []⟩
  rw [h1, h2, h3, h4, runGeneratorCore_eq_foldl]
  have hout : allOutcomes render false false false false fs pf = [] := by
    simp [allOutcomes, fileOutcomes, serviceOutcomes, targetSlots, flatMap_nil_fun]
  rw [hout]
  rfl

/-- Witness for C7: an entirely-unrecognized parameter string produces
the empty response for a request that would otherwise generate files. -/
theorem unrecognized_params_not_error_witness :
    runGenerator renderOk ⟨"ts_client, bogus,,", ["hello.proto"], [fdHello]⟩ =
      ⟨none, []⟩ :=
  unrecognized_params_not_error renderOk ("ts_client, bogus,,") ["hello.proto"] [fdHello]
    (by decide)

/-- C8: when stdin cannot be read or the request cannot be decoded,
the process exits with status 1 and writes nothing to stdout — no
response, hence no generated files. -/
theorem undecodable_request_aborts
    (stdin : Option (List Nat)) (decode : List Nat → Option CodeGeneratorRequest)
    (render : Tmpl → serviceInfo → Except String String)
    (h : stdin = none ∨ ∃ buf, stdin = some buf ∧ decode buf = none) :
    (runPlugin stdin decode render).exitCode ≠ 0 ∧
      (runPlugin stdin decode render).stdoutResp = none := by
  rcases h with h | ⟨buf, rfl, hdec⟩
  · subst h
    exact ⟨Nat.one_ne_zero, rfl⟩
  · simp [runPlugin, hdec]

/-- Witness for C8: a decoder that rejects the input bytes makes the
run exit non-zero with no stdout output. -/
theorem undecodable_request_aborts_witness :
    (runPlugin (some [0, 1, 2]) (fun _ => none) renderOk).exitCode ≠ 0 ∧
      (runPlugin (some [0, 1, 2]) (fun _ => none) renderOk).stdoutResp = none :=
  undecodable_request_aborts (some [0, 1, 2]) (fun _ => none) renderOk
    (Or.inr ⟨[0, 1, 2], rfl, rfl⟩)

theorem filterMap_flatMap_eq {α β γ : Type} (l : List α) (g : α → List β)
    (f : β → Option γ) :
    (l.flatMap g).filterMap f = l.flatMap (fun a => (g a).filterMap f) := by
  induction l with
  | nil => rfl
  | cons a t ih => simp [List.flatMap_cons, List.filterMap_append, ih]

theorem flatMap_fun_congr {α β : Type} (l : List α) (f g : α → List β)
    (h : ∀ a ∈ l, f a = g a) : l.flatMap f = l.flatMap g := by
  induction l with
  | nil => rfl
  | cons a t ih =>
    rw [List.flatMap_cons, List.flatMap_cons, h a (List.mem_cons_self a t),
      ih (fun x hx => h x (List.mem_cons_of_mem a hx))]

theorem flatMap_if_filter {α β : Type} (l : List α) (p : α → Bool) (g : α → List β) :
    (l.flatMap fun a => if p a then g a else []) = (l.filter p).flatMap g := by
  induction l with
  | nil => rfl
  | cons a t ih =>
    cases hpa : p a <;> simp [List.flatMap_cons, List.filter_cons, hpa, ih]

theorem mem_if_singleton {α : Type} {a x : α} {b : Bool} :
    a ∈ (if b then [x] else []) ↔ b = true ∧ a = x := by
  cases b <;> simp

/-- The fully determined response file order: requested schema files in
request order, services in declaration order within each file, and the
fixed C# client, C# server, JS client, JS server target order within
each service — keeping only activated targets whose rendering
succeeded. -/
def expectedFileOrder (render : Tmpl → serviceInfo → Except String String)
    (req : CodeGeneratorRequest) : List CodeGeneratorResponseFile :=
  (req.protoFile.filter (fun fd => contains req.fileToGenerate fd.name)).flatMap (fun fd =>
    fd.service.flatMap (fun svc =>
      (targetSlots (decide ("cs_client" ∈ parseGeneratorParams req.parameter))
          (decide ("cs_server" ∈ parseGeneratorParams req.parameter))
          (decide ("js_client" ∈ parseGeneratorParams req.parameter))
          (decide ("js_server" ∈ parseGeneratorParams req.parameter))
          (trimSuffix fd.name (filepathExt fd.name)) svc.name).filterMap
        (fun slot => okFile (slotOutcome render
          (buildServiceInfo fd (trimSuffix fd.name (filepathExt fd.name)) svc) slot))))

/-- C10: the order of files in the response is fully determined —
grouped by requested schema file in request order, then by service
declaration order, then the fixed C# client, C# server, JS client,
JS server target order, restricted to activated targets. -/
theorem response_file_order_determined
    (render : Tmpl → serviceInfo → Except String String) (req : CodeGeneratorRequest) :
    (runGenerator render req).file = expectedFileOrder render req := by
  rw [runGenerator_characterization]
  show (List.filterMap okFile (requestOutcomes render req)) = expectedFileOrder render req
  unfold requestOutcomes allOutcomes expectedFileOrder
  rw [filterMap_flatMap_eq, ← flatMap_if_filter]
  refine flatMap_fun_congr _ _ _ (fun fd _ => ?_)
  unfold fileOutcomes
  cases hc : contains req.fileToGenerate fd.name with
  | false => rw [if_neg (by simp [hc]), if_neg (by simp [hc])]; rfl
  | true =>
    rw [if_pos rfl, if_pos rfl, filterMap_flatMap_eq]
    refine flatMap_fun_congr _ _ _ (fun svc _ => ?_)
    unfold serviceOutcomes
    rw [List.filterMap_map]
    rfl

/-- C4: every file the generator emits is named by the deterministic
contract — base name of the requested schema file, underscore, service
name, then "Client" for client stubs or "Base" for server stubs, with
extension ".cs" for the C# targets and ".js" for the JavaScript
targets; no other name is ever emitted, and each shape occurs only for
its activated target. -/
theorem generated_file_names_follow_contract
    (render : Tmpl → serviceInfo → Except String String) (req : CodeGeneratorRequest)
    (f : CodeGeneratorResponseFile) (hf : f ∈ (runGenerator render req).file) :
    ∃ fd, fd ∈ req.protoFile ∧ contains req.fileToGenerate fd.name = true ∧
      ∃ svc, svc ∈ fd.service ∧
        ((("cs_client" ∈ parseGeneratorParams req.parameter) ∧
            f.name = trimSuffix fd.name (filepathExt fd.name) ++ "_" ++ svc.name ++ "Client.cs") ∨
         (("cs_server" ∈ parseGeneratorParams req.parameter) ∧
            f.name = trimSuffix fd.name (filepathExt fd.name) ++ "_" ++ svc.name ++ "Base.cs") ∨
         (("js_client" ∈ parseGeneratorParams req.parameter) ∧
            f.name = trimSuffix fd.name (filepathExt fd.name) ++ "_" ++ svc.name ++ "Client.js") ∨
         (("js_server" ∈ parseGeneratorParams req.parameter) ∧
            f.name = trimSuffix fd.name (filepathExt fd.name) ++ "_" ++ svc.name ++ "Base.js")) := by
  rw [runGenerator_characterization] at hf
  have hf2 : f ∈ (requestOutcomes render req).filterMap okFile := hf
  rcases List.mem_filterMap.mp hf2 with ⟨o, ho, hok⟩
  unfold requestOutcomes allOutcomes at ho
  rcases List.mem_flatMap.mp ho with ⟨fd, hfd, hofd⟩
  unfold fileOutcomes at hofd
  cases hcont : contains req.fileToGenerate fd.name with
  | false =>
    rw [if_neg (by simp [hcont])] at hofd
    cases hofd
  | true =>
    rw [if_pos (by simp [hcont])] at hofd
    rcases List.mem_flatMap.mp hofd with ⟨svc, hsvc, hosvc⟩
    unfold serviceOutcomes at hosvc
    rcases List.mem_map.mp hosvc with ⟨slot, hslot, rfl⟩
    refine ⟨fd, hfd, hcont, svc, hsvc, ?_⟩
    have hname : f.name = slot.2 := by
      unfold slotOutcome okFile at hok
      cases hr : render slot.1
          (buildServiceInfo fd (trimSuffix fd.name (filepathExt fd.name)) svc) with
      | error e => rw [hr] at hok; cases hok
      | ok out =>
        rw [hr] at hok
        cases hok
        rfl
    unfold targetSlots at hslot
    simp only [List.mem_append, mem_if_singleton] at hslot
    rcases hslot with (((⟨hb, rfl⟩ | ⟨hb, rfl⟩) | ⟨hb, rfl⟩) | ⟨hb, rfl⟩)
    · exact Or.inl ⟨of_decide_eq_true hb, hname⟩
    · exact Or.inr (Or.inl ⟨of_decide_eq_true hb, hname⟩)
    · exact Or.inr (Or.inr (Or.inl ⟨of_decide_eq_true hb, hname⟩))
    · exact Or.inr (Or.inr (Or.inr ⟨of_decide_eq_true hb, hname⟩))

/-- Witness for C4: the client stub emitted for `hello.proto`, service
`Greeter` under the `cs_client` target carries the contract name. -/
theorem generated_file_names_follow_contract_witness :
    ∃ fd, fd ∈ (reqW ("cs_client")).protoFile ∧
      contains (reqW ("cs_client")).fileToGenerate fd.name = true ∧
      ∃ svc, svc ∈ fd.service ∧
        ((("cs_client" ∈ parseGeneratorParams (reqW ("cs_client")).parameter) ∧
            (⟨"hello_GreeterClient.cs", "stub"⟩ : CodeGeneratorResponseFile).name =
              trimSuffix fd.name (filepathExt fd.name) ++ "_" ++ svc.name ++ "Client.cs") ∨
         (("cs_server" ∈ parseGeneratorParams (reqW ("cs_client")).parameter) ∧
            (⟨"hello_GreeterClient.cs", "stub"⟩ : CodeGeneratorResponseFile).name =
              trimSuffix fd.name (filepathExt fd.name) ++ "_" ++ svc.name ++ "Base.cs") ∨
         (("js_client" ∈ parseGeneratorParams (reqW ("cs_client")).parameter) ∧
            (⟨"hello_GreeterClient.cs", "stub"⟩ : CodeGeneratorResponseFile).name =
              trimSuffix fd.name (filepathExt fd.name) ++ "_" ++ svc.name ++ "Client.js") ∨
         (("js_server" ∈ parseGeneratorParams (reqW ("cs_client")).parameter) ∧
            (⟨"hello_GreeterClient.cs", "stub"⟩ : CodeGeneratorResponseFile).name =
              trimSuffix fd.name (filepathExt fd.name) ++ "_" ++ svc.name ++ "Base.js")) :=
  generated_file_names_follow_contract renderOk (reqW ("cs_client"))
    ⟨"hello_GreeterClient.cs", "stub"⟩ (by decide)
